import Mathlib

/- Shallow embedding of the deterministic fractal-image pipeline of the
   stu-workers repository: `generateFractal` from src/fractal.js, the binary
   encoders `createMinimalBMP` and `createMinimalPNG`, and the parameter
   handling of `handleFractalRequest` in src/index.js.

   JavaScript numbers are modelled as exact rationals; every 32-bit integer
   operation of the source (`>>> 0`, `setUint32`, `~`, `>> 8`, `& 0xFF`)
   carries an explicit `% 2^32` / `% 256` / complement in ℕ.  Byte buffers
   are `List ℕ`.  `Math.floor(Math.sqrt ...)` on naturals is embedded by the
   executable integer square root `isqrt`, proved below to agree with
   `Nat.sqrt` and with the real `⌊255·√(i/m)⌋₊`. -/

namespace StuWorkers

/-- One step of the seeded generator of fractal.js line 25 and index.js
    line 713: `state = (state * 1664525 + 1013904223) >>> 0`. -/
def lcgStep (s : ℕ) : ℕ := (s * 1664525 + 1013904223) % 4294967296

/-- The value returned by one call of `random()`: `state / 0xFFFFFFFF`
    (fractal.js line 26), as an exact rational. -/
def lcgValue (s : ℕ) : ℚ := (s : ℚ) / 4294967295

/-- The five numeric parameters drawn in fractal.js lines 31-43. -/
structure FractalParams where
  zoom : ℚ
  centerX : ℚ
  centerY : ℚ
  juliaX : ℚ
  juliaY : ℚ
  deriving Repr, DecidableEq

/-- Parameter derivation of fractal.js lines 22-43: a fresh generator is
    seeded with `seed`, and its five successive draws give zoom, centerX,
    centerY, juliaX, juliaY in that order; for the 'julia' variant the two
    center coordinates are overwritten with 0 afterwards. -/
def fractalParams (seed : ℕ) (fractalType : String) : FractalParams :=
  let s1 := lcgStep seed
  let s2 := lcgStep s1
  let s3 := lcgStep s2
  let s4 := lcgStep s3
  let s5 := lcgStep s4
  { zoom := 2.8 + lcgValue s1 * 0.8
    centerX := if fractalType = "julia" then 0 else -0.65 + (lcgValue s2 - 0.5) * 0.3
    centerY := if fractalType = "julia" then 0 else (lcgValue s3 - 0.5) * 0.3
    juliaX := -0.4 + lcgValue s4 * 0.8
    juliaY := -0.4 + lcgValue s5 * 0.8 }

/-- Plane x-coordinate of a pixel: `cx = (x - width/2) * zoom / width + centerX`
    (fractal.js line 49). -/
def pixelCx (width : ℕ) (zoom centerX : ℚ) (x : ℕ) : ℚ :=
  ((x : ℚ) - (width : ℚ) / 2) * zoom / (width : ℚ) + centerX

/-- Plane y-coordinate of a pixel: `cy = (y - height/2) * zoom / height + centerY`
    (fractal.js line 50). -/
def pixelCy (height : ℕ) (zoom centerY : ℚ) (y : ℕ) : ℚ :=
  ((y : ℚ) - (height : ℚ) / 2) * zoom / (height : ℚ) + centerY

/-- One iteration of the escape loop body (the `switch` of fractal.js lines
    61-78), dispatching on the fractal type string exactly as the source
    does: 'julia' and 'burningship' are matched, everything else falls to
    the default Mandelbrot rule. -/
def escapeStep (fractalType : String) (cx cy jx jy : ℚ) (z : ℚ × ℚ) : ℚ × ℚ :=
  if fractalType = "julia" then
    (z.1 * z.1 - z.2 * z.2 + jx, 2 * z.1 * z.2 + jy)
  else if fractalType = "burningship" then
    (z.1 * z.1 - z.2 * z.2 + cx, |2 * z.1 * z.2| + cy)
  else
    (z.1 * z.1 - z.2 * z.2 + cx, 2 * z.1 * z.2 + cy)

/-- The loop `while (zx*zx + zy*zy <= 4 && i < maxIter) { ...; i++ }` of
    fractal.js lines 59-80, returning the number of iterations executed;
    `fuel` is the number of iterations still allowed (`maxIter - i`). -/
def escapeFrom (step : ℚ × ℚ → ℚ × ℚ) : ℚ × ℚ → ℕ → ℕ
  | _, 0 => 0
  | z, fuel + 1 =>
    if z.1 * z.1 + z.2 * z.2 ≤ 4 then escapeFrom step (step z) fuel + 1 else 0

/-- Escape count of one pixel: orbit initialized at `(cx, cy)` for 'julia'
    and at `(0, 0)` otherwise (fractal.js lines 48-56), then iterated at
    most `maxIter` times. -/
def pixelEscape (width height maxIter seed : ℕ) (fractalType : String) (x y : ℕ) : ℕ :=
  let p := fractalParams seed fractalType
  let cx := pixelCx width p.zoom p.centerX x
  let cy := pixelCy height p.zoom p.centerY y
  escapeFrom (escapeStep fractalType cx cy p.juliaX p.juliaY)
    (if fractalType = "julia" then (cx, cy) else (0, 0)) maxIter

/-- Executable integer square root: largest `k ≤ m` with `k * k ≤ n`. -/
def isqrtAux (n : ℕ) : ℕ → ℕ
  | 0 => 0
  | k + 1 => if (k + 1) * (k + 1) ≤ n then k + 1 else isqrtAux n k

/-- Executable floor square root of a natural number. -/
def isqrt (n : ℕ) : ℕ := isqrtAux n n

/-- Grayscale mapping of fractal.js lines 83-88: 0 for `i == maxIter`,
    otherwise `Math.floor(255 * Math.sqrt(i / maxIter))`, which for
    naturals is `⌊√(255² · i / m)⌋ = isqrt (65025 * i / m)`; the agreement
    with the real-number expression is proved in `colorize_eq_floor`. -/
def colorize (i m : ℕ) : ℕ := if i = m then 0 else isqrt (65025 * i / m)

/-- Intensity stored for one pixel. -/
def pixelIntensity (width height maxIter seed : ℕ) (fractalType : String) (x y : ℕ) : ℕ :=
  colorize (pixelEscape width height maxIter seed fractalType x y) maxIter

/-- The grid produced by `generateFractal` (fractal.js lines 18-93):
    row-major, `height` rows of `width` intensities. -/
def generateFractal (width height maxIter seed : ℕ) (fractalType : String) : List ℕ :=
  (List.range height).flatMap fun y =>
    (List.range width).map fun x =>
      pixelIntensity width height maxIter seed fractalType x y

/-- Fractal-type selection of index.js line 718: an explicitly requested
    non-empty type string is used as is (`typeParam || ...`, so the empty
    string counts as unspecified); otherwise the first draw of a generator
    seeded with `seed` decides: `random() < 0.5 ? 'mandelbrot' : 'julia'`. -/
def chooseFractalType (typeParam : Option String) (seed : ℕ) : String :=
  match typeParam with
  | some t =>
    if t = "" then (if lcgValue (lcgStep seed) < 0.5 then "mandelbrot" else "julia") else t
  | none => if lcgValue (lcgStep seed) < 0.5 then "mandelbrot" else "julia"

/-- Width clamp of index.js lines 695-703: `Math.min(requested, useBmp ? 800 : 320)`. -/
def handlerWidth (requested : ℕ) (useBmp : Bool) : ℕ :=
  min requested (if useBmp then 800 else 320)

/-- Height clamp of index.js lines 695-704: `Math.min(requested, useBmp ? 600 : 200)`. -/
def handlerHeight (requested : ℕ) (useBmp : Bool) : ℕ :=
  min requested (if useBmp then 600 else 200)

lemma isqrtAux_eq_min (n m : ℕ) : isqrtAux n m = min (Nat.sqrt n) m := by
  induction m with
  | zero => simp [isqrtAux]
  | succ k ih =>
    simp only [isqrtAux, ih]
    rcases le_or_lt ((k + 1) * (k + 1)) n with h | h
    · rw [if_pos h]
      have : k + 1 ≤ Nat.sqrt n := Nat.le_sqrt.mpr h
      omega
    · rw [if_neg (by omega)]
      have : ¬ (k + 1 ≤ Nat.sqrt n) := fun hc => absurd (Nat.le_sqrt.mp hc) (by omega)
      omega

lemma isqrt_eq_sqrt (n : ℕ) : isqrt n = Nat.sqrt n :=
  (isqrtAux_eq_min n n).trans (min_eq_left (Nat.sqrt_le_self n))

lemma lcgStep_lt (s : ℕ) : lcgStep s < 4294967296 :=
  Nat.mod_lt _ (by norm_num)

lemma lcgValue_nonneg (s : ℕ) : 0 ≤ lcgValue s := by
  unfold lcgValue
  positivity

lemma lcgValue_le_one (s : ℕ) (hs : s ≤ 4294967295) : lcgValue s ≤ 1 := by
  unfold lcgValue
  rw [div_le_one (by norm_num)]
  exact_mod_cast hs

lemma escapeFrom_le (step : ℚ × ℚ → ℚ × ℚ) : ∀ (z : ℚ × ℚ) (fuel : ℕ),
    escapeFrom step z fuel ≤ fuel := by
  intro z fuel
  induction fuel generalizing z with
  | zero => simp [escapeFrom]
  | succ k ih =>
    rw [escapeFrom]
    split
    · exact Nat.succ_le_succ (ih _)
    · exact Nat.zero_le _

lemma pixelEscape_le (width height maxIter seed : ℕ) (fractalType : String) (x y : ℕ) :
    pixelEscape width height maxIter seed fractalType x y ≤ maxIter :=
  escapeFrom_le _ _ _

/-- Two little-endian bytes of a 16-bit value (`view.setUint16(_, _, true)`). -/
def u16le (n : ℕ) : List ℕ := [n % 256, n / 256 % 256]

/-- Four little-endian bytes of a 32-bit value (`view.setUint32(_, _, true)`). -/
def u32le (n : ℕ) : List ℕ :=
  [n % 256, n / 256 % 256, n / 65536 % 256, n / 16777216 % 256]

/-- Four little-endian bytes of a signed 32-bit value in two's complement
    (`view.setInt32(_, _, true)`). -/
def i32le (n : ℤ) : List ℕ := u32le (n % 4294967296).toNat

/-- Row stride of the BMP encoder:
    `rowSize = Math.floor((width * 8 + 31) / 32) * 4` (part_000 line 2). -/
def bmpRowSize (width : ℕ) : ℕ := (width * 8 + 31) / 32 * 4

/-- The 14-byte file header and 40-byte DIB header written by
    `createMinimalBMP` at offsets 0-53, in offset order: magic "BM",
    file size, reserved, pixel-data offset 54+1024, DIB size 40, width,
    negative height, planes 1, bpp 8, compression 0, image size,
    2835×2835 resolution, 256 colors used / important. -/
def bmpHeader (width height : ℕ) : List ℕ :=
  let imageSize := bmpRowSize width * height
  let fileSize := 54 + 1024 + imageSize
  u16le 0x4D42 ++ u32le fileSize ++ u32le 0 ++ u32le (54 + 1024) ++
    u32le 40 ++ i32le (width : ℤ) ++ i32le (-(height : ℤ)) ++ u16le 1 ++ u16le 8 ++
    u32le 0 ++ u32le imageSize ++ i32le 2835 ++ i32le 2835 ++ u32le 256 ++ u32le 256

/-- The 1024-byte grayscale palette: 256 entries of `(i, i, i, 0)`. -/
def bmpPalette : List ℕ := (List.range 256).flatMap fun i => [i, i, i, 0]

/-- Concatenation of `rowF y0, rowF (y0+1), ...` for `n` rows: the shape of
    the per-row output loops of both encoders. -/
def rowsAux (rowF : ℕ → List ℕ) : ℕ → ℕ → List ℕ
  | _, 0 => []
  | y, n + 1 => rowF y ++ rowsAux rowF (y + 1) n

/-- One padded BMP pixel row: `width` data bytes (`setUint8` reduces values
    mod 256) followed by zero padding up to the stride (part_000 lines 41-48). -/
def bmpRow (width : ℕ) (data : List ℕ) (y : ℕ) : List ℕ :=
  ((List.range width).map fun x => data.getD (y * width + x) 0 % 256) ++
    List.replicate (bmpRowSize width - width) 0

/-- The full output of `createMinimalBMP width height pixelData`. -/
def createMinimalBMP (width height : ℕ) (data : List ℕ) : List ℕ :=
  bmpHeader width height ++ bmpPalette ++ rowsAux (bmpRow width data) 0 height

/-- One step of the CRC32 table construction:
    `c = c & 1 ? 0xEDB88320 ^ (c >>> 1) : c >>> 1`. -/
def crcTableStep (c : ℕ) : ℕ :=
  if c % 2 = 1 then 0xEDB88320 ^^^ (c / 2) else c / 2

/-- Entry `i` of the CRC32 table: eight `crcTableStep` iterations on `i`. -/
def crcTable (i : ℕ) : ℕ := crcTableStep^[8] i

/-- Table-driven CRC32 of part_005: running value starts at `~0`
    (0xFFFFFFFF), each byte does
    `crc = table[(crc ^ byte) & 0xFF] ^ (crc >>> 8)`, and the result is
    `~crc >>> 0`. -/
def crc32 (buf : List ℕ) : ℕ :=
  (buf.foldl (fun crc byte => crcTable ((crc ^^^ byte) % 256) ^^^ (crc / 256))
    0xFFFFFFFF) ^^^ 0xFFFFFFFF

/-- Adler-32 of part_005: `a = (a + byte) % 65521; b = (b + a) % 65521`
    from `(a, b) = (1, 0)`, result `(b << 16) | a`. -/
def adler32 (buf : List ℕ) : ℕ :=
  let p := buf.foldl
    (fun (ab : ℕ × ℕ) byte =>
      ((ab.1 + byte) % 65521, (ab.2 + (ab.1 + byte) % 65521) % 65521))
    (1, 0)
  p.2 * 65536 + p.1

/-- The `toBigEndian` helper of `createMinimalPNG`: four big-endian bytes of
    the 32-bit value (JavaScript `>>`/`& 0xff` after ToInt32 wrapping). -/
def toBigEndian (n : ℕ) : List ℕ :=
  let m := n % 4294967296
  [m / 16777216 % 256, m / 65536 % 256, m / 256 % 256, m % 256]

/-- The 8-byte PNG signature. -/
def pngSignature : List ℕ := [137, 80, 78, 71, 13, 10, 26, 10]

/-- The IHDR chunk without its CRC: length 13, type "IHDR", big-endian
    width and height, bit depth 8, color type 0, compression 0, filter 0,
    interlace 0. -/
def pngHeaderChunk (width height : ℕ) : List ℕ :=
  toBigEndian 13 ++ [73, 72, 68, 82] ++ toBigEndian width ++ toBigEndian height ++
    [8, 0, 0, 0, 0]

/-- The scanline buffer: each of the `height` rows is a filter byte 0
    followed by the `width` row bytes (part_005 lines 96-100; bytes beyond
    the end of `pixelData` read as 0, as `Uint8Array.set`/`slice` leave the
    zero-initialized buffer untouched there). -/
def pngScanlines (width height : ℕ) (data : List ℕ) : List ℕ :=
  rowsAux (fun y => 0 :: ((List.range width).map fun x => data.getD (y * width + x) 0))
    0 height

/-- The 2-byte zlib header `[0x78, 0x01]`. -/
def zlibHeaderBytes : List ℕ := [0x78, 0x01]

/-- The 5-byte stored-block header of part_005 lines 104-110: final-block
    flag 0x01, the low 16 bits of the length little-endian, then the low
    16 bits of its bitwise complement little-endian. -/
def storedBlockHeader (len : ℕ) : List ℕ :=
  [0x01, len % 256, len / 256 % 256, 255 - len % 256, 255 - len / 256 % 256]

/-- The zlib stream of the IDAT chunk: header, stored-block header, raw
    scanlines, big-endian Adler-32 of the scanlines. -/
def pngDeflate (width height : ℕ) (data : List ℕ) : List ℕ :=
  let scanlines := pngScanlines width height data
  zlibHeaderBytes ++ storedBlockHeader scanlines.length ++ scanlines ++
    toBigEndian (adler32 scanlines)

/-- The IDAT chunk: big-endian data length, type "IDAT", the zlib stream,
    CRC32 over type + stream. -/
def pngDataChunk (width height : ℕ) (data : List ℕ) : List ℕ :=
  let deflate := pngDeflate width height data
  toBigEndian deflate.length ++ [73, 68, 65, 84] ++ deflate ++
    toBigEndian (crc32 ([73, 68, 65, 84] ++ deflate))

/-- The IEND chunk: zero length, type "IEND", CRC32 over the type. -/
def pngEndChunk : List ℕ :=
  toBigEndian 0 ++ [73, 69, 78, 68] ++ toBigEndian (crc32 [73, 69, 78, 68])

/-- The full output of `createMinimalPNG width height pixelData`:
    signature, IHDR chunk with its CRC over type+data, IDAT chunk, IEND. -/
def createMinimalPNG (width height : ℕ) (data : List ℕ) : List ℕ :=
  pngSignature ++ pngHeaderChunk width height ++
    toBigEndian (crc32 ((pngHeaderChunk width height).drop 4)) ++
    pngDataChunk width height data ++ pngEndChunk

/-- Little-endian 32-bit read at an offset of a byte list, used to state
    properties of the stored BMP file-size field. -/
def readU32LE (l : List ℕ) (off : ℕ) : ℕ :=
  l.getD off 0 + 256 * l.getD (off + 1) 0 + 65536 * l.getD (off + 2) 0 +
    16777216 * l.getD (off + 3) 0

lemma bmpHeader_length (width height : ℕ) : (bmpHeader width height).length = 54 := by
  simp [bmpHeader, u16le, u32le, i32le]

set_option maxRecDepth 16384 in
lemma bmpPalette_length : bmpPalette.length = 1024 := by decide

lemma rowsAux_length (rowF : ℕ → List ℕ) (c : ℕ) (hc : ∀ y, (rowF y).length = c) :
    ∀ (n y0 : ℕ), (rowsAux rowF y0 n).length = n * c := by
  intro n
  induction n with
  | zero => intro y0; simp [rowsAux]
  | succ k ih =>
    intro y0
    simp [rowsAux, hc, ih, Nat.succ_mul, Nat.add_comm]

lemma width_le_bmpRowSize (width : ℕ) : width ≤ bmpRowSize width := by
  unfold bmpRowSize
  omega

lemma bmpRow_length (width : ℕ) (data : List ℕ) (y : ℕ) :
    (bmpRow width data y).length = bmpRowSize width := by
  have h := width_le_bmpRowSize width
  simp [bmpRow]
  omega

lemma createMinimalBMP_length (width height : ℕ) (data : List ℕ) :
    (createMinimalBMP width height data).length = 54 + 1024 + bmpRowSize width * height := by
  simp [createMinimalBMP, bmpHeader_length, bmpPalette_length,
    rowsAux_length (bmpRow width data) (bmpRowSize width) (bmpRow_length width data),
    Nat.mul_comm]
  omega

lemma pngScanlines_length (width height : ℕ) (data : List ℕ) :
    (pngScanlines width height data).length = height * (width + 1) := by
  unfold pngScanlines
  rw [rowsAux_length _ (width + 1)]
  intro y
  simp

lemma rowsAux_drop (rowF : ℕ → List ℕ) (c : ℕ) (hc : ∀ y, (rowF y).length = c) :
    ∀ (k n y0 : ℕ), k < n →
      (rowsAux rowF y0 n).drop (k * c) =
        rowF (y0 + k) ++ rowsAux rowF (y0 + k + 1) (n - k - 1) := by
  intro k
  induction k with
  | zero =>
    intro n y0 hn
    obtain ⟨n', rfl⟩ : ∃ n', n = n' + 1 := ⟨n - 1, by omega⟩
    simp [rowsAux]
  | succ j ih =>
    intro n y0 hn
    obtain ⟨n', rfl⟩ : ∃ n', n = n' + 1 := ⟨n - 1, by omega⟩
    have hstep : (rowsAux rowF y0 (n' + 1)).drop ((j + 1) * c) =
        (rowsAux rowF (y0 + 1) n').drop (j * c) := by
      have : (j + 1) * c = c + j * c := by ring
      rw [this, rowsAux, ← hc y0, List.drop_append]
    rw [hstep, ih n' (y0 + 1) (by omega)]
    have e1 : y0 + 1 + j = y0 + (j + 1) := by omega
    have e2 : n' - j - 1 = n' + 1 - (j + 1) - 1 := by omega
    rw [e1, e2]

lemma natSqrt_eq_floor_sqrt (i m : ℕ) (hm : 0 < m) :
    Nat.sqrt (65025 * i / m) = ⌊(255 : ℝ) * Real.sqrt ((i : ℝ) / (m : ℝ))⌋₊ := by
  have hmR : (0 : ℝ) < (m : ℝ) := by exact_mod_cast hm
  have ht : (0 : ℝ) ≤ (i : ℝ) / (m : ℝ) := by positivity
  have hsq : (255 : ℝ) * Real.sqrt ((i : ℝ) / (m : ℝ)) =
      Real.sqrt (65025 * ((i : ℝ) / (m : ℝ))) := by
    rw [show (65025 : ℝ) = 255 ^ 2 by norm_num, Real.sqrt_mul (by positivity),
      Real.sqrt_sq (by norm_num)]
  apply le_antisymm
  · apply Nat.le_floor
    rw [hsq]
    have h1 : ((Nat.sqrt (65025 * i / m) : ℕ) : ℝ) ^ 2 ≤ 65025 * ((i : ℝ) / (m : ℝ)) := by
      have h2 : Nat.sqrt (65025 * i / m) * Nat.sqrt (65025 * i / m) ≤ 65025 * i / m :=
        Nat.sqrt_le _
      calc ((Nat.sqrt (65025 * i / m) : ℕ) : ℝ) ^ 2
          = ((Nat.sqrt (65025 * i / m) * Nat.sqrt (65025 * i / m) : ℕ) : ℝ) := by
            push_cast; ring
        _ ≤ ((65025 * i / m : ℕ) : ℝ) := by exact_mod_cast h2
        _ ≤ ((65025 * i : ℕ) : ℝ) / (m : ℝ) := Nat.cast_div_le
        _ = 65025 * ((i : ℝ) / (m : ℝ)) := by push_cast; ring
    exact (Real.le_sqrt (by positivity) (by positivity)).mpr h1
  · apply Nat.le_sqrt.mpr
    have hn : ((⌊(255 : ℝ) * Real.sqrt ((i : ℝ) / (m : ℝ))⌋₊ : ℕ) : ℝ) ≤
        255 * Real.sqrt ((i : ℝ) / (m : ℝ)) := Nat.floor_le (by positivity)
    have hsq2 : ((⌊(255 : ℝ) * Real.sqrt ((i : ℝ) / (m : ℝ))⌋₊ : ℕ) : ℝ) ^ 2 ≤
        65025 * ((i : ℝ) / (m : ℝ)) := by
      calc ((⌊(255 : ℝ) * Real.sqrt ((i : ℝ) / (m : ℝ))⌋₊ : ℕ) : ℝ) ^ 2
          ≤ (255 * Real.sqrt ((i : ℝ) / (m : ℝ))) ^ 2 :=
            pow_le_pow_left₀ (by positivity) hn 2
        _ = 65025 * ((i : ℝ) / (m : ℝ)) := by
            rw [mul_pow, Real.sq_sqrt ht]; norm_num
    rw [Nat.le_div_iff_mul_le hm]
    have hr : ((⌊(255 : ℝ) * Real.sqrt ((i : ℝ) / (m : ℝ))⌋₊ *
        ⌊(255 : ℝ) * Real.sqrt ((i : ℝ) / (m : ℝ))⌋₊ * m : ℕ) : ℝ) ≤
        ((65025 * i : ℕ) : ℝ) := by
      push_cast
      calc ((⌊(255 : ℝ) * Real.sqrt ((i : ℝ) / (m : ℝ))⌋₊ : ℕ) : ℝ) *
            ((⌊(255 : ℝ) * Real.sqrt ((i : ℝ) / (m : ℝ))⌋₊ : ℕ) : ℝ) * (m : ℝ)
          = ((⌊(255 : ℝ) * Real.sqrt ((i : ℝ) / (m : ℝ))⌋₊ : ℕ) : ℝ) ^ 2 * (m : ℝ) := by
            ring
        _ ≤ 65025 * ((i : ℝ) / (m : ℝ)) * (m : ℝ) :=
            mul_le_mul_of_nonneg_right hsq2 (le_of_lt hmR)
        _ = 65025 * (i : ℝ) := by field_simp
    exact_mod_cast hr

lemma colorize_eq_floor (i m : ℕ) (hm : 0 < m) (him : i ≠ m) :
    colorize i m = ⌊(255 : ℝ) * Real.sqrt ((i : ℝ) / (m : ℝ))⌋₊ := by
  rw [colorize, if_neg him, isqrt_eq_sqrt, natSqrt_eq_floor_sqrt i m hm]

lemma colorize_lt_255 (i m : ℕ) (hm : 0 < m) (him : i ≤ m) : colorize i m < 255 := by
  unfold colorize
  split
  · norm_num
  · rw [isqrt_eq_sqrt]
    have him' : i < m := lt_of_le_of_ne him (by assumption)
    have hq : 65025 * i / m < 65025 := by
      rw [Nat.div_lt_iff_lt_mul hm]
      omega
    exact Nat.sqrt_lt.mpr (by omega)

lemma colorize_eq_zero_iff (i m : ℕ) (hm : 0 < m) :
    colorize i m = 0 ↔ i = m ∨ 65025 * i < m := by
  unfold colorize
  split
  · simp [*]
  · rw [isqrt_eq_sqrt, Nat.sqrt_eq_zero, Nat.div_eq_zero_iff hm]
    simp [*]

lemma mem_generateFractal (w h m seed : ℕ) (ft : String) (p : ℕ)
    (hp : p ∈ generateFractal w h m seed ft) :
    ∃ x y, x < w ∧ y < h ∧ p = pixelIntensity w h m seed ft x y := by
  unfold generateFractal at hp
  simp only [List.mem_flatMap, List.mem_map, List.mem_range] at hp
  obtain ⟨y, hy, x, hx, rfl⟩ := hp
  exact ⟨x, y, hx, hy, rfl⟩

/-- C1: for equal input tuples (seed, width, height, maxIter, variant), the
    intensity grids and the encoded BMP and PNG byte sequences of two runs
    coincide: the embedded pipeline threads its generator state explicitly
    and is a pure function of the tuple, so no state survives between
    invocations. -/
theorem pipeline_deterministic
    (w₁ h₁ m₁ s₁ : ℕ) (ft₁ : String) (w₂ h₂ m₂ s₂ : ℕ) (ft₂ : String)
    (hw : w₁ = w₂) (hh : h₁ = h₂) (hm : m₁ = m₂) (hs : s₁ = s₂) (hft : ft₁ = ft₂) :
    generateFractal w₁ h₁ m₁ s₁ ft₁ = generateFractal w₂ h₂ m₂ s₂ ft₂ ∧
    createMinimalBMP w₁ h₁ (generateFractal w₁ h₁ m₁ s₁ ft₁) =
      createMinimalBMP w₂ h₂ (generateFractal w₂ h₂ m₂ s₂ ft₂) ∧
    createMinimalPNG w₁ h₁ (generateFractal w₁ h₁ m₁ s₁ ft₁) =
      createMinimalPNG w₂ h₂ (generateFractal w₂ h₂ m₂ s₂ ft₂) := by
  subst hw; subst hh; subst hm; subst hs; subst hft
  exact ⟨rfl, rfl, rfl⟩

/-- C1 witness: the determinism theorem applied at a concrete tuple. -/
theorem pipeline_deterministic_witness :
    generateFractal 2 2 3 7 "mandelbrot" = generateFractal 2 2 3 7 "mandelbrot" ∧
    createMinimalBMP 2 2 (generateFractal 2 2 3 7 "mandelbrot") =
      createMinimalBMP 2 2 (generateFractal 2 2 3 7 "mandelbrot") ∧
    createMinimalPNG 2 2 (generateFractal 2 2 3 7 "mandelbrot") =
      createMinimalPNG 2 2 (generateFractal 2 2 3 7 "mandelbrot") :=
  pipeline_deterministic 2 2 3 7 "mandelbrot" 2 2 3 7 "mandelbrot" rfl rfl rfl rfl rfl

/-- C3 (amended): one generator step maps a 32-bit state to
    (state·1664525 + 1013904223) mod 2^32 and returns newState / 0xFFFFFFFF,
    which lies in the closed interval [0, 1]; the value equals 1 exactly
    when the new state is 0xFFFFFFFF (the divisor is 2^32 − 1, not 2^32, so
    the right end is attained). -/
theorem lcg_step_contract (s : ℕ) :
    lcgStep s = (s * 1664525 + 1013904223) % 4294967296 ∧
    0 ≤ lcgValue (lcgStep s) ∧ lcgValue (lcgStep s) ≤ 1 ∧
    (lcgValue (lcgStep s) = 1 ↔ lcgStep s = 4294967295) := by
  refine ⟨rfl, lcgValue_nonneg _, lcgValue_le_one _ (by have := lcgStep_lt s; omega), ?_⟩
  unfold lcgValue
  rw [div_eq_one_iff_eq (by norm_num)]
  constructor
  · intro hc; exact_mod_cast hc
  · intro hc; exact_mod_cast congrArg (Nat.cast : ℕ → ℚ) hc

/-- C3 as stated is refuted: from state 653637408 one step reaches state
    0xFFFFFFFF, and the returned value is exactly 1, outside [0, 1). -/
theorem lcg_value_one_counterexample :
    lcgStep 653637408 = 4294967295 ∧ lcgValue (lcgStep 653637408) = 1 ∧
    ¬ lcgValue (lcgStep 653637408) < 1 := by
  have h : lcgStep 653637408 = 4294967295 := by norm_num [lcgStep]
  refine ⟨h, ?_, ?_⟩ <;> rw [h] <;> norm_num [lcgValue]

/-- C2 as stated is refuted at seed 0: the auto-selected variant is
    Mandelbrot (first draw below 0.5), but the zoom produced by the code is
    2.8 + 0.8·v1 — the parameter generator restarts from the seed — and
    differs from the claimed 2.8 + 0.8·v2. -/
theorem param_draw_order_counterexample :
    chooseFractalType none 0 = "mandelbrot" ∧
    (fractalParams 0 "mandelbrot").zoom = 2.8 + lcgValue (lcgStep 0) * 0.8 ∧
    (fractalParams 0 "mandelbrot").zoom ≠ 2.8 + lcgValue (lcgStep (lcgStep 0)) * 0.8 := by
  have h1 : lcgStep 0 = 1013904223 := by norm_num [lcgStep]
  have h2 : lcgStep 1013904223 = 1196435762 := by norm_num [lcgStep]
  refine ⟨?_, by simp [fractalParams], ?_⟩
  · have hv : lcgValue (lcgStep 0) < 0.5 := by rw [h1]; norm_num [lcgValue]
    simp [chooseFractalType, hv]
  · simp only [fractalParams, h1, h2]
    norm_num [lcgValue]

/-- C2 (amended): when the variant is unspecified the first draw of the
    handler's generator selects it (below 0.5 gives Mandelbrot, otherwise
    Julia; BurningShip is never auto-selected).  The parameters are then
    drawn by a fresh generator restarted from the same seed, so its
    successive draws v1..v5 give zoom = 2.8 + 0.8·v1 ∈ [2.8, 3.6],
    centerX = −0.65 + (v2 − 0.5)·0.3 and centerY = (v3 − 0.5)·0.3 (both
    forced to 0 for Julia), juliaX = −0.4 + 0.8·v4 ∈ [−0.4, 0.4] and
    juliaY = −0.4 + 0.8·v5 ∈ [−0.4, 0.4] (intervals closed on the right
    because a draw can equal 1). -/
theorem parameter_selection (seed : ℕ) (ft : String) :
    (chooseFractalType none seed = "mandelbrot" ↔ lcgValue (lcgStep seed) < 0.5) ∧
    (chooseFractalType none seed = "mandelbrot" ∨ chooseFractalType none seed = "julia") ∧
    chooseFractalType none seed ≠ "burningship" ∧
    (fractalParams seed ft).zoom = 2.8 + lcgValue (lcgStep seed) * 0.8 ∧
    (fractalParams seed ft).centerX =
      (if ft = "julia" then 0 else -0.65 + (lcgValue (lcgStep (lcgStep seed)) - 0.5) * 0.3) ∧
    (fractalParams seed ft).centerY =
      (if ft = "julia" then 0
       else (lcgValue (lcgStep (lcgStep (lcgStep seed))) - 0.5) * 0.3) ∧
    (fractalParams seed ft).juliaX =
      -0.4 + lcgValue (lcgStep (lcgStep (lcgStep (lcgStep seed)))) * 0.8 ∧
    (fractalParams seed ft).juliaY =
      -0.4 + lcgValue (lcgStep (lcgStep (lcgStep (lcgStep (lcgStep seed))))) * 0.8 ∧
    2.8 ≤ (fractalParams seed ft).zoom ∧ (fractalParams seed ft).zoom ≤ 3.6 ∧
    -0.4 ≤ (fractalParams seed ft).juliaX ∧ (fractalParams seed ft).juliaX ≤ 0.4 ∧
    -0.4 ≤ (fractalParams seed ft).juliaY ∧ (fractalParams seed ft).juliaY ≤ 0.4 := by
  have hb : ∀ s : ℕ, 0 ≤ lcgValue (lcgStep s) ∧ lcgValue (lcgStep s) ≤ 1 := fun s =>
    ⟨lcgValue_nonneg _, lcgValue_le_one _ (by have := lcgStep_lt s; omega)⟩
  refine ⟨?_, ?_, ?_, by simp [fractalParams], by simp [fractalParams],
    by simp [fractalParams], by simp [fractalParams], by simp [fractalParams],
    ?_, ?_, ?_, ?_, ?_, ?_⟩
  · by_cases hv : lcgValue (lcgStep seed) < 0.5 <;> simp [chooseFractalType, hv]
  · by_cases hv : lcgValue (lcgStep seed) < 0.5 <;> simp [chooseFractalType, hv]
  · by_cases hv : lcgValue (lcgStep seed) < 0.5 <;> simp [chooseFractalType, hv]
  · have := (hb seed).1
    simp only [fractalParams]
    nlinarith [this]
  · have := (hb seed).2
    simp only [fractalParams]
    nlinarith [this]
  · have := (hb (lcgStep (lcgStep (lcgStep seed)))).1
    simp only [fractalParams]
    nlinarith [this]
  · have := (hb (lcgStep (lcgStep (lcgStep seed)))).2
    simp only [fractalParams]
    nlinarith [this]
  · have := (hb (lcgStep (lcgStep (lcgStep (lcgStep seed))))).1
    simp only [fractalParams]
    nlinarith [this]
  · have := (hb (lcgStep (lcgStep (lcgStep (lcgStep seed))))).2
    simp only [fractalParams]
    nlinarith [this]

/-- C3 witness: the generator-step contract at state 5. -/
theorem lcg_step_contract_witness :
    lcgStep 5 = (5 * 1664525 + 1013904223) % 4294967296 ∧
    0 ≤ lcgValue (lcgStep 5) ∧ lcgValue (lcgStep 5) ≤ 1 ∧
    (lcgValue (lcgStep 5) = 1 ↔ lcgStep 5 = 4294967295) :=
  lcg_step_contract 5

/-- C2 witness: the parameter-selection theorem at seed 3, variant
    'julia'. -/
theorem parameter_selection_witness :
    (chooseFractalType none 3 = "mandelbrot" ↔ lcgValue (lcgStep 3) < 0.5) ∧
    (chooseFractalType none 3 = "mandelbrot" ∨ chooseFractalType none 3 = "julia") ∧
    chooseFractalType none 3 ≠ "burningship" ∧
    (fractalParams 3 "julia").zoom = 2.8 + lcgValue (lcgStep 3) * 0.8 ∧
    (fractalParams 3 "julia").centerX =
      (if ("julia" : String) = "julia" then 0
       else -0.65 + (lcgValue (lcgStep (lcgStep 3)) - 0.5) * 0.3) ∧
    (fractalParams 3 "julia").centerY =
      (if ("julia" : String) = "julia" then 0
       else (lcgValue (lcgStep (lcgStep (lcgStep 3))) - 0.5) * 0.3) ∧
    (fractalParams 3 "julia").juliaX =
      -0.4 + lcgValue (lcgStep (lcgStep (lcgStep (lcgStep 3)))) * 0.8 ∧
    (fractalParams 3 "julia").juliaY =
      -0.4 + lcgValue (lcgStep (lcgStep (lcgStep (lcgStep (lcgStep 3))))) * 0.8 ∧
    2.8 ≤ (fractalParams 3 "julia").zoom ∧ (fractalParams 3 "julia").zoom ≤ 3.6 ∧
    -0.4 ≤ (fractalParams 3 "julia").juliaX ∧ (fractalParams 3 "julia").juliaX ≤ 0.4 ∧
    -0.4 ≤ (fractalParams 3 "julia").juliaY ∧ (fractalParams 3 "julia").juliaY ≤ 0.4 :=
  parameter_selection 3 "julia"

/-- C7: every fractal-type string other than 'julia' and 'burningship'
    (including unrecognized strings) produces exactly the Mandelbrot
    output: the parameter draws, the orbit start (0, 0) and the update rule
    all fall through to the default case, and no error is possible. -/
theorem unrecognized_type_defaults (w h m seed : ℕ) (ft : String)
    (hj : ft ≠ "julia") (hb : ft ≠ "burningship") :
    generateFractal w h m seed ft = generateFractal w h m seed "mandelbrot" ∧
    (∀ (cx cy jx jy : ℚ) (z : ℚ × ℚ), escapeStep ft cx cy jx jy z =
      (z.1 * z.1 - z.2 * z.2 + cx, 2 * z.1 * z.2 + cy)) ∧
    (∀ cx cy : ℚ, (if ft = "julia" then (cx, cy) else ((0 : ℚ), (0 : ℚ))) =
      ((0 : ℚ), (0 : ℚ))) := by
  have hm' : ("mandelbrot" : String) ≠ "julia" := by decide
  have hparams : fractalParams seed ft = fractalParams seed "mandelbrot" := by
    simp [fractalParams, hj, hm']
  have hstepf : ∀ cx cy jx jy : ℚ,
      escapeStep ft cx cy jx jy = escapeStep "mandelbrot" cx cy jx jy := by
    intro cx cy jx jy
    funext z
    simp [escapeStep, hj, hb]
  have hpe : ∀ x y, pixelEscape w h m seed ft x y =
      pixelEscape w h m seed "mandelbrot" x y := by
    intro x y
    simp only [pixelEscape]
    rw [hparams, hstepf, if_neg hj, if_neg hm']
  refine ⟨?_, ?_, ?_⟩
  · unfold generateFractal pixelIntensity
    exact congrArg (List.flatMap (List.range h))
      (funext fun y => congrArg (List.map · (List.range w))
        (funext fun x => by rw [hpe x y]))
  · intro cx cy jx jy z
    rw [escapeStep, if_neg hj, if_neg hb]
  · intro cx cy
    rw [if_neg hj]

/-- C7 witness: the default theorem applied to the unrecognized string
    'fern'. -/
theorem unrecognized_type_defaults_witness :
    generateFractal 2 2 3 5 "fern" = generateFractal 2 2 3 5 "mandelbrot" ∧
    (∀ (cx cy jx jy : ℚ) (z : ℚ × ℚ), escapeStep "fern" cx cy jx jy z =
      (z.1 * z.1 - z.2 * z.2 + cx, 2 * z.1 * z.2 + cy)) ∧
    (∀ cx cy : ℚ, (if ("fern" : String) = "julia" then (cx, cy) else ((0 : ℚ), (0 : ℚ))) =
      ((0 : ℚ), (0 : ℚ))) :=
  unrecognized_type_defaults 2 2 3 5 "fern" (by decide) (by decide)

lemma escapeFrom_succ (step : ℚ × ℚ → ℚ × ℚ) (z : ℚ × ℚ) (k : ℕ) :
    escapeFrom step z (k + 1) =
      if z.1 * z.1 + z.2 * z.2 ≤ 4 then escapeFrom step (step z) k + 1 else 0 := rfl

lemma escapeFrom_eq_zero (step : ℚ × ℚ → ℚ × ℚ) (z : ℚ × ℚ) (fuel : ℕ)
    (hz : ¬ (z.1 * z.1 + z.2 * z.2 ≤ 4)) : escapeFrom step z fuel = 0 := by
  cases fuel with
  | zero => rfl
  | succ n => rw [escapeFrom_succ, if_neg hz]

/-- C4 as stated is refuted: for seed 0 the 1×1 Julia image at maxIter 1
    has a single pixel whose starting point already lies outside the escape
    radius, so its escape count is 0 ≠ maxIter, yet its stored intensity is
    0. -/
theorem intensity_zero_counterexample :
    pixelEscape 1 1 1 0 "julia" 0 0 = 0 ∧
    generateFractal 1 1 1 0 "julia" = [0] ∧ (0 : ℕ) ≠ 1 := by
  have h1 : lcgStep 0 = 1013904223 := by norm_num [lcgStep]
  have hpe : pixelEscape 1 1 1 0 "julia" 0 0 = 0 := by
    simp only [pixelEscape, ite_true]
    apply escapeFrom_eq_zero
    simp only [fractalParams, pixelCx, pixelCy, lcgValue, h1]
    norm_num
  refine ⟨hpe, ?_, by decide⟩
  have hgrid : generateFractal 1 1 1 0 "julia" =
      [pixelIntensity 1 1 1 0 "julia" 0 0] := by
    simp [generateFractal, List.range_succ]
  rw [hgrid, pixelIntensity, hpe]
  decide

/-- C4 (amended): every grid entry is the intensity of some pixel; a
    pixel's intensity is 0 exactly when the escape count equals maxIter or
    is so small that 255²·i < maxIter (in particular when i = 0, which
    Julia pixels can attain); for i < maxIter the intensity equals
    ⌊255·√(i/maxIter)⌋; and every intensity is at most 255. -/
theorem intensity_mapping (w h m seed x y : ℕ) (ft : String) (hm : 1 ≤ m) :
    (∀ p ∈ generateFractal w h m seed ft, ∃ x' y', x' < w ∧ y' < h ∧
        p = pixelIntensity w h m seed ft x' y') ∧
    (pixelIntensity w h m seed ft x y = 0 ↔
      pixelEscape w h m seed ft x y = m ∨ 65025 * pixelEscape w h m seed ft x y < m) ∧
    (pixelEscape w h m seed ft x y < m →
      pixelIntensity w h m seed ft x y =
        ⌊(255 : ℝ) * Real.sqrt ((pixelEscape w h m seed ft x y : ℝ) / (m : ℝ))⌋₊) ∧
    (pixelEscape w h m seed ft x y = m → pixelIntensity w h m seed ft x y = 0) ∧
    pixelIntensity w h m seed ft x y ≤ 255 := by
  refine ⟨fun p hp => mem_generateFractal w h m seed ft p hp, ?_, ?_, ?_, ?_⟩
  · exact colorize_eq_zero_iff _ _ hm
  · intro hlt
    exact colorize_eq_floor _ _ hm (Nat.ne_of_lt hlt)
  · intro heq
    simp [pixelIntensity, colorize, heq]
  · exact le_of_lt (lt_of_lt_of_le (colorize_lt_255 _ _ hm
      (pixelEscape_le w h m seed ft x y)) (by norm_num))

/-- C4 witness: the amended intensity theorem at the 1×1 Mandelbrot image
    with seed 0 and maxIter 1. -/
theorem intensity_mapping_witness :
    1 ≤ 1 ∧
    ((∀ p ∈ generateFractal 1 1 1 0 "mandelbrot", ∃ x' y', x' < 1 ∧ y' < 1 ∧
        p = pixelIntensity 1 1 1 0 "mandelbrot" x' y') ∧
    (pixelIntensity 1 1 1 0 "mandelbrot" 0 0 = 0 ↔
      pixelEscape 1 1 1 0 "mandelbrot" 0 0 = 1 ∨
        65025 * pixelEscape 1 1 1 0 "mandelbrot" 0 0 < 1) ∧
    (pixelEscape 1 1 1 0 "mandelbrot" 0 0 < 1 →
      pixelIntensity 1 1 1 0 "mandelbrot" 0 0 =
        ⌊(255 : ℝ) * Real.sqrt ((pixelEscape 1 1 1 0 "mandelbrot" 0 0 : ℝ) / ((1 : ℕ) : ℝ))⌋₊) ∧
    (pixelEscape 1 1 1 0 "mandelbrot" 0 0 = 1 →
      pixelIntensity 1 1 1 0 "mandelbrot" 0 0 = 0) ∧
    pixelIntensity 1 1 1 0 "mandelbrot" 0 0 ≤ 255) :=
  ⟨le_refl 1, intensity_mapping 1 1 1 0 0 0 "mandelbrot" (le_refl 1)⟩

/-- C8: with maxIter ≥ 1 no stored intensity equals 255: an escaping pixel
    has count at most maxIter − 1, so ⌊255·√(i/maxIter)⌋ ≤ 254, and a pixel
    reaching maxIter is mapped to 0; full white is unreachable. -/
theorem no_full_white (w h m seed : ℕ) (ft : String) (hm : 1 ≤ m) :
    ∀ p ∈ generateFractal w h m seed ft, p < 255 := by
  intro p hp
  obtain ⟨x, y, _, _, rfl⟩ := mem_generateFractal w h m seed ft p hp
  exact colorize_lt_255 _ _ hm (pixelEscape_le w h m seed ft x y)

/-- C8 witness: the no-full-white theorem at a concrete image. -/
theorem no_full_white_witness :
    1 ≤ 1 ∧ ∀ p ∈ generateFractal 3 2 1 0 "mandelbrot", p < 255 :=
  ⟨le_refl 1, no_full_white 3 2 1 0 "mandelbrot" (le_refl 1)⟩

/-- C9: for non-Julia variants with maxIter ≥ 1 every pixel's escape count
    is at least 1, because the orbit starts at (0, 0), which passes the
    zx²+zy² ≤ 4 test, so the loop body runs at least once; and a Julia
    pixel has escape count 0 exactly when its starting point (cx, cy)
    already fails the squared-threshold test. -/
theorem escape_count_positive (w h m seed x y : ℕ) (ft : String) (hm : 1 ≤ m)
    (hft : ft ≠ "julia") :
    1 ≤ pixelEscape w h m seed ft x y ∧
    (pixelEscape w h m seed "julia" x y = 0 ↔
      ¬ (pixelCx w (fractalParams seed "julia").zoom (fractalParams seed "julia").centerX x *
          pixelCx w (fractalParams seed "julia").zoom (fractalParams seed "julia").centerX x +
          pixelCy h (fractalParams seed "julia").zoom (fractalParams seed "julia").centerY y *
          pixelCy h (fractalParams seed "julia").zoom (fractalParams seed "julia").centerY y
          ≤ 4)) := by
  obtain ⟨k, rfl⟩ : ∃ k, m = k + 1 := ⟨m - 1, by omega⟩
  constructor
  · simp only [pixelEscape]
    rw [if_neg hft, escapeFrom_succ, if_pos (by norm_num)]
    omega
  · simp only [pixelEscape, ite_true]
    rw [escapeFrom_succ]
    by_cases hc : pixelCx w (fractalParams seed "julia").zoom
        (fractalParams seed "julia").centerX x *
        pixelCx w (fractalParams seed "julia").zoom (fractalParams seed "julia").centerX x +
        pixelCy h (fractalParams seed "julia").zoom (fractalParams seed "julia").centerY y *
        pixelCy h (fractalParams seed "julia").zoom (fractalParams seed "julia").centerY y ≤ 4
    · rw [if_pos hc]
      simp [hc]
    · rw [if_neg hc]
      simp [hc]

/-- C9 witness: the positive-escape-count theorem at a concrete pixel. -/
theorem escape_count_positive_witness :
    1 ≤ 1 ∧ (("mandelbrot" : String) ≠ "julia") ∧
    (1 ≤ pixelEscape 1 1 1 0 "mandelbrot" 0 0 ∧
    (pixelEscape 1 1 1 0 "julia" 0 0 = 0 ↔
      ¬ (pixelCx 1 (fractalParams 0 "julia").zoom (fractalParams 0 "julia").centerX 0 *
          pixelCx 1 (fractalParams 0 "julia").zoom (fractalParams 0 "julia").centerX 0 +
          pixelCy 1 (fractalParams 0 "julia").zoom (fractalParams 0 "julia").centerY 0 *
          pixelCy 1 (fractalParams 0 "julia").zoom (fractalParams 0 "julia").centerY 0
          ≤ 4))) :=
  ⟨le_refl 1, by decide, escape_count_positive 1 1 1 0 0 0 "mandelbrot" (le_refl 1) (by decide)⟩

lemma createMinimalBMP_getD_header (w h : ℕ) (data : List ℕ) (k : ℕ) (hk : k < 54) :
    (createMinimalBMP w h data).getD k 0 = (bmpHeader w h).getD k 0 := by
  unfold createMinimalBMP
  rw [List.getD_append _ _ _ _ (by
    rw [List.length_append, bmpHeader_length, bmpPalette_length]; omega)]
  exact List.getD_append _ _ _ _ (by rw [bmpHeader_length]; exact hk)

lemma bmpHeader_filesize_bytes (w h : ℕ) :
    (bmpHeader w h).getD 2 0 = (54 + 1024 + bmpRowSize w * h) % 256 ∧
    (bmpHeader w h).getD 3 0 = (54 + 1024 + bmpRowSize w * h) / 256 % 256 ∧
    (bmpHeader w h).getD 4 0 = (54 + 1024 + bmpRowSize w * h) / 65536 % 256 ∧
    (bmpHeader w h).getD 5 0 = (54 + 1024 + bmpRowSize w * h) / 16777216 % 256 := by
  refine ⟨?_, ?_, ?_, ?_⟩ <;>
    simp only [bmpHeader, u16le, u32le, i32le, List.cons_append, List.nil_append,
      List.getD_cons_succ, List.getD_cons_zero]

/-- C5 (amended): for width ≥ 1, height ≥ 1 and a grid of length
    width·height, the BMP buffer has length exactly 54 + 1024 +
    stride·height with stride = ceil(width/4)·4, starts with 0x42 0x4D, its
    little-endian file-size field holds the total length reduced mod 2^32
    (equal to the actual length whenever that is below 2^32), the palette
    is exactly the 256 grayscale entries (i, i, i, 0), and the tail bytes
    of every padded row are zero. -/
theorem bmp_format (w h : ℕ) (data : List ℕ) (hw : 1 ≤ w) (hh : 1 ≤ h)
    (hdata : data.length = w * h) :
    bmpRowSize w = (w + 3) / 4 * 4 ∧
    (createMinimalBMP w h data).length = 54 + 1024 + bmpRowSize w * h ∧
    (createMinimalBMP w h data).take 2 = [0x42, 0x4D] ∧
    readU32LE (createMinimalBMP w h data) 2 = (54 + 1024 + bmpRowSize w * h) % 4294967296 ∧
    ((createMinimalBMP w h data).drop 54).take 1024 =
      ((List.range 256).flatMap fun i => [i, i, i, 0]) ∧
    ∀ y < h, (((createMinimalBMP w h data).drop (54 + 1024 + y * bmpRowSize w)).take
        (bmpRowSize w)).drop w = List.replicate (bmpRowSize w - w) 0 := by
  refine ⟨by unfold bmpRowSize; omega, createMinimalBMP_length w h data, ?_, ?_, ?_, ?_⟩
  · unfold createMinimalBMP
    rw [List.append_assoc,
      List.take_append_of_le_length (by rw [bmpHeader_length]; norm_num)]
    simp [bmpHeader, u16le]
  · obtain ⟨h2, h3, h4, h5⟩ := bmpHeader_filesize_bytes w h
    unfold readU32LE
    rw [createMinimalBMP_getD_header _ _ _ 2 (by norm_num),
      createMinimalBMP_getD_header _ _ _ 3 (by norm_num),
      createMinimalBMP_getD_header _ _ _ 4 (by norm_num),
      createMinimalBMP_getD_header _ _ _ 5 (by norm_num), h2, h3, h4, h5]
    omega
  · unfold createMinimalBMP
    rw [List.append_assoc,
      show (54 : ℕ) = (bmpHeader w h).length from (bmpHeader_length w h).symm,
      List.drop_left, List.take_left' bmpPalette_length]
    rfl
  · intro y hy
    have hdrop : (createMinimalBMP w h data).drop (54 + 1024 + y * bmpRowSize w) =
        (rowsAux (bmpRow w data) 0 h).drop (y * bmpRowSize w) := by
      unfold createMinimalBMP
      have hlen : (bmpHeader w h ++ bmpPalette).length = 1078 := by
        rw [List.length_append, bmpHeader_length, bmpPalette_length]
      rw [show 54 + 1024 + y * bmpRowSize w =
        (bmpHeader w h ++ bmpPalette).length + y * bmpRowSize w by rw [hlen]]
      exact List.drop_append _
    rw [hdrop, rowsAux_drop (bmpRow w data) (bmpRowSize w) (bmpRow_length w data) y h 0 hy,
      List.take_left' (bmpRow_length w data (0 + y))]
    unfold bmpRow
    rw [List.drop_left' (by simp)]

/-- C5 witness: the BMP format theorem at a 1×1 image. -/
theorem bmp_format_witness :
    1 ≤ 1 ∧ (List.replicate 1 (5 : ℕ)).length = 1 * 1 ∧
    (bmpRowSize 1 = (1 + 3) / 4 * 4 ∧
    (createMinimalBMP 1 1 (List.replicate 1 5)).length = 54 + 1024 + bmpRowSize 1 * 1 ∧
    (createMinimalBMP 1 1 (List.replicate 1 5)).take 2 = [0x42, 0x4D] ∧
    readU32LE (createMinimalBMP 1 1 (List.replicate 1 5)) 2 =
      (54 + 1024 + bmpRowSize 1 * 1) % 4294967296 ∧
    ((createMinimalBMP 1 1 (List.replicate 1 5)).drop 54).take 1024 =
      ((List.range 256).flatMap fun i => [i, i, i, 0]) ∧
    ∀ y < 1, (((createMinimalBMP 1 1 (List.replicate 1 5)).drop
        (54 + 1024 + y * bmpRowSize 1)).take (bmpRowSize 1)).drop 1 =
      List.replicate (bmpRowSize 1 - 1) 0) :=
  ⟨le_refl 1, by decide, bmp_format 1 1 (List.replicate 1 5) (le_refl 1) (le_refl 1) (by decide)⟩

/-- C5's file-size-field clause is refuted when the true size overflows 32
    bits: at width 1 and height 2^30 the buffer is 2^32 + 1078 bytes long
    but the stored little-endian field reads 1078. -/
theorem bmp_filesize_overflow_counterexample :
    (createMinimalBMP 1 1073741824 (List.replicate 1073741824 0)).length = 4294968374 ∧
    readU32LE (createMinimalBMP 1 1073741824 (List.replicate 1073741824 0)) 2 = 1078 ∧
    (1078 : ℕ) ≠ 4294968374 := by
  refine ⟨?_, ?_, by decide⟩
  · rw [createMinimalBMP_length]
    norm_num [bmpRowSize]
  · obtain ⟨h2, h3, h4, h5⟩ := bmpHeader_filesize_bytes 1 1073741824
    unfold readU32LE
    rw [createMinimalBMP_getD_header _ _ _ 2 (by norm_num),
      createMinimalBMP_getD_header _ _ _ 3 (by norm_num),
      createMinimalBMP_getD_header _ _ _ 4 (by norm_num),
      createMinimalBMP_getD_header _ _ _ 5 (by norm_num), h2, h3, h4, h5]
    norm_num [bmpRowSize]

lemma pngDeflate_eq (w h : ℕ) (data : List ℕ) :
    pngDeflate w h data =
      zlibHeaderBytes ++ storedBlockHeader (h * (w + 1)) ++ pngScanlines w h data ++
        toBigEndian (adler32 (pngScanlines w h data)) := by
  simp only [pngDeflate]
  rw [pngScanlines_length]

lemma pngDeflate_length (w h : ℕ) (data : List ℕ) :
    (pngDeflate w h data).length = h * (w + 1) + 11 := by
  rw [pngDeflate_eq]
  simp [zlibHeaderBytes, storedBlockHeader, toBigEndian, pngScanlines_length]

/-- C6: the IDAT chunk of `createMinimalPNG` wraps a zlib stream made of
    the header 0x78 0x01, the 5-byte stored-block header (final-block flag
    1, the 16-bit length little-endian, the 16-bit one's complement of the
    length little-endian), the raw scanlines (each row prefixed by filter
    byte 0, total height·(width+1) bytes), and the big-endian Adler-32 of
    the scanlines (a = 1, b = 0, modulus 65521, as `adler32` computes), so
    the IDAT data length is height·(width+1) + 11. -/
theorem png_idat_layout (w h : ℕ) (data : List ℕ) :
    (pngScanlines w h data).length = h * (w + 1) ∧
    (∀ y < h, (pngScanlines w h data).drop (y * (w + 1)) =
      (0 :: ((List.range w).map fun x => data.getD (y * w + x) 0)) ++
        rowsAux (fun y' => 0 :: ((List.range w).map fun x => data.getD (y' * w + x) 0))
          (y + 1) (h - y - 1)) ∧
    pngDeflate w h data =
      [0x78, 0x01] ++
        [0x01, h * (w + 1) % 256, h * (w + 1) / 256 % 256,
          255 - h * (w + 1) % 256, 255 - h * (w + 1) / 256 % 256] ++
        pngScanlines w h data ++ toBigEndian (adler32 (pngScanlines w h data)) ∧
    (pngDeflate w h data).length = h * (w + 1) + 11 ∧
    pngDataChunk w h data =
      toBigEndian (h * (w + 1) + 11) ++ [73, 68, 65, 84] ++ pngDeflate w h data ++
        toBigEndian (crc32 ([73, 68, 65, 84] ++ pngDeflate w h data)) ∧
    createMinimalPNG w h data =
      pngSignature ++ pngHeaderChunk w h ++
        toBigEndian (crc32 ((pngHeaderChunk w h).drop 4)) ++ pngDataChunk w h data ++
        pngEndChunk := by
  refine ⟨pngScanlines_length w h data, ?_, ?_, pngDeflate_length w h data, ?_, rfl⟩
  · intro y hy
    unfold pngScanlines
    have hd := rowsAux_drop
      (fun y' => 0 :: ((List.range w).map fun x => data.getD (y' * w + x) 0))
      (w + 1) (fun y' => by simp) y h 0 hy
    simpa using hd
  · rw [pngDeflate_eq]
    rfl
  · simp only [pngDataChunk]
    rw [pngDeflate_length]

/-- C6 witness: the IDAT layout theorem at a 1×1 image. -/
theorem png_idat_layout_witness :
    (pngScanlines 1 1 [9]).length = 1 * (1 + 1) ∧
    (∀ y < 1, (pngScanlines 1 1 [9]).drop (y * (1 + 1)) =
      (0 :: ((List.range 1).map fun x => [(9 : ℕ)].getD (y * 1 + x) 0)) ++
        rowsAux (fun y' => 0 :: ((List.range 1).map fun x => [(9 : ℕ)].getD (y' * 1 + x) 0))
          (y + 1) (1 - y - 1)) ∧
    pngDeflate 1 1 [9] =
      [0x78, 0x01] ++
        [0x01, 1 * (1 + 1) % 256, 1 * (1 + 1) / 256 % 256,
          255 - 1 * (1 + 1) % 256, 255 - 1 * (1 + 1) / 256 % 256] ++
        pngScanlines 1 1 [9] ++ toBigEndian (adler32 (pngScanlines 1 1 [9])) ∧
    (pngDeflate 1 1 [9]).length = 1 * (1 + 1) + 11 ∧
    pngDataChunk 1 1 [9] =
      toBigEndian (1 * (1 + 1) + 11) ++ [73, 68, 65, 84] ++ pngDeflate 1 1 [9] ++
        toBigEndian (crc32 ([73, 68, 65, 84] ++ pngDeflate 1 1 [9])) ∧
    createMinimalPNG 1 1 [9] =
      pngSignature ++ pngHeaderChunk 1 1 ++
        toBigEndian (crc32 ((pngHeaderChunk 1 1).drop 4)) ++ pngDataChunk 1 1 [9] ++
        pngEndChunk :=
  png_idat_layout 1 1 [9]

/-- C10: under the precondition height·(width+1) < 65536 — which the
    handler's PNG clamps width ≤ 320, height ≤ 200 guarantee, since
    200·321 = 64200 — the 5-byte stored-block header is exactly 0x01, the
    scanline length in little-endian 16 bits, and the bitwise one's
    complement of that length in little-endian 16 bits. -/
theorem stored_block_16bit (wreq hreq w h : ℕ) (data : List ℕ)
    (hlen : h * (w + 1) < 65536) :
    handlerHeight hreq false * (handlerWidth wreq false + 1) < 65536 ∧
    storedBlockHeader (h * (w + 1)) =
      [1, h * (w + 1) % 256, h * (w + 1) / 256,
        255 - h * (w + 1) % 256, 255 - h * (w + 1) / 256] ∧
    h * (w + 1) % 256 + 256 * (h * (w + 1) / 256) = h * (w + 1) ∧
    255 - h * (w + 1) % 256 + 256 * (255 - h * (w + 1) / 256) = 65535 - h * (w + 1) ∧
    pngDeflate w h data =
      zlibHeaderBytes ++ storedBlockHeader (h * (w + 1)) ++ pngScanlines w h data ++
        toBigEndian (adler32 (pngScanlines w h data)) := by
  refine ⟨?_, ?_, by omega, by omega, pngDeflate_eq w h data⟩
  · simp only [handlerWidth, handlerHeight, Bool.false_eq_true, if_false]
    calc min hreq 200 * (min wreq 320 + 1)
        ≤ 200 * (320 + 1) :=
          Nat.mul_le_mul (min_le_right _ _) (by have := min_le_right wreq 320; omega)
      _ < 65536 := by norm_num
  · simp only [storedBlockHeader]
    rw [Nat.mod_eq_of_lt (show h * (w + 1) / 256 < 256 by omega)]

/-- C10 witness: the stored-block theorem at a 1×1 image with the maximal
    clamped request 320×200. -/
theorem stored_block_16bit_witness :
    1 * (1 + 1) < 65536 ∧
    (handlerHeight 200 false * (handlerWidth 320 false + 1) < 65536 ∧
    storedBlockHeader (1 * (1 + 1)) =
      [1, 1 * (1 + 1) % 256, 1 * (1 + 1) / 256,
        255 - 1 * (1 + 1) % 256, 255 - 1 * (1 + 1) / 256] ∧
    1 * (1 + 1) % 256 + 256 * (1 * (1 + 1) / 256) = 1 * (1 + 1) ∧
    255 - 1 * (1 + 1) % 256 + 256 * (255 - 1 * (1 + 1) / 256) = 65535 - 1 * (1 + 1) ∧
    pngDeflate 1 1 [3] =
      zlibHeaderBytes ++ storedBlockHeader (1 * (1 + 1)) ++ pngScanlines 1 1 [3] ++
        toBigEndian (adler32 (pngScanlines 1 1 [3]))) :=
  ⟨by decide, stored_block_16bit 320 200 1 1 [3] (by decide)⟩

end StuWorkers
